import Mathlib

/-!
Verification of the 2048 board-transition engine and move-selection code
(`src/game.rs`, `src/agent/mod.rs`, `src/agent/expectimax.rs`,
`src/agent/random.rs`) against its natural-language specification.

Modelling conventions:
* `u8` cells become `Nat`; the single arithmetic that can overflow a `u8`
  (the merge `v[i] + 1`) is reduced `% 256` explicitly.
* `usize` score / move counters become `Nat` (their overflow is unreachable
  for any board whose cells fit the game's value range).
* The process-wide RNG (`fastrand`) is made explicit: every random draw the
  Rust code performs is a parameter of the embedded function
  (`pLow` for `fastrand::f32() < 0.9`, `c_idx` for `fastrand::usize(..)`,
  a permutation hypothesis for `fastrand::shuffle`).
* f32 spawn weights in the expectimax chance layer are modelled as `ℚ`;
  the claims about them concern only list structure, not float rounding.
-/

/-- The four directions, in declaration order (`enum Move` in `game.rs`);
`Move::iter()` and `EnumMap` iteration both use this order. -/
inductive Move where
  | Up
  | Down
  | Left
  | Right
deriving DecidableEq, Repr

/-- Iteration order of `Move::iter()` / `EnumMap<Move, _>::iter()`. -/
def Move.iterOrder : List Move := [.Up, .Down, .Left, .Right]

/-- Position of a move in the declaration order (used to state tie-break
properties of `max_move`). -/
def moveIdx : Move → Nat
  | .Up => 0
  | .Down => 1
  | .Left => 2
  | .Right => 3

/-- `struct Game { state: [u8; 16], score: usize, num_moves: usize }`.
The 16 cells are row-major log2 exponents (0 = empty). -/
structure Game where
  state : List Nat
  score : Nat
  num_moves : Nat
deriving DecidableEq, Repr

/-- `Game::empty()`: all cells zero, score 0, moves 0. -/
def Game.empty : Game := { state := List.replicate 16 0, score := 0, num_moves := 0 }

/-- `v.iter().position(|n| *n == 0)` on a line. -/
def position0 : List Nat → Option Nat
  | [] => none
  | n :: rest => if n = 0 then some 0 else (position0 rest).map (· + 1)

/-- `Game::first_empty`: `v.iter().position(|n| *n == 0).unwrap_or(4)`. -/
def first_empty (v : List Nat) : Nat := (position0 v).getD 4

/-- One step of the condensing fold in `get_condensed_rows`/`get_condensed_cols`:
`acc[first_empty(acc)] = n`. -/
def insertFirstEmpty (acc : List Nat) (n : Nat) : List Nat :=
  acc.set (first_empty acc) n

/-- The per-line condensing in `Game::get_condensed_rows` /
`Game::get_condensed_cols`: starting from `[0; 4]`, each nonzero cell of the
line is written at the first empty slot of the accumulator. -/
def condense (v : List Nat) : List Nat :=
  (v.filter (fun n => !(n == 0))).foldl insertFirstEmpty [0, 0, 0, 0]

/-- The `while i < 4` loop of `Game::merge_duplicates`, with the score
accumulation threaded through.  `r` starts as `[0; 4]`; the merged value
`v[i] + 1` is a `u8` addition, hence the `% 256`.  The loop body executes at
most 4 times (`i` grows by at least 1 each pass), so we recurse structurally
on an explicit iteration bound `fuel` (started at 4) while keeping the
source's `i < 4` guard; this changes nothing observable. -/
def mergeLoop (v : List Nat) : Nat → Nat → Nat → List Nat → Nat → List Nat × Nat
  | 0, _, _, r, s => (r, s)
  | fuel + 1, i, j, r, s =>
    if i < 4 then
      if i < 3 ∧ v.getD i 0 ≠ 0 ∧ v.getD i 0 = v.getD (i + 1) 0 then
        let newv := (v.getD i 0 + 1) % 256
        mergeLoop v fuel (i + 2) (j + 1) (r.set j newv) (s + 2 ^ newv)
      else if v.getD i 0 ≠ 0 then
        mergeLoop v fuel (i + 1) (j + 1) (r.set j (v.getD i 0)) s
      else
        mergeLoop v fuel (i + 1) j r s
    else
      (r, s)

/-- `Game::merge_duplicates(v, true)`: returns the merged line together with
the score gained (the Rust method adds the gain to `self.score` in place). -/
def merge_duplicates (v : List Nat) : List Nat × Nat :=
  mergeLoop v 4 0 0 [0, 0, 0, 0] 0

/-- The rows of the board, as read by `state.chunks(4)`. -/
def get_rows (g : Game) : List (List Nat) :=
  [[g.state.getD 0 0, g.state.getD 1 0, g.state.getD 2 0, g.state.getD 3 0],
   [g.state.getD 4 0, g.state.getD 5 0, g.state.getD 6 0, g.state.getD 7 0],
   [g.state.getD 8 0, g.state.getD 9 0, g.state.getD 10 0, g.state.getD 11 0],
   [g.state.getD 12 0, g.state.getD 13 0, g.state.getD 14 0, g.state.getD 15 0]]

/-- `Game::get_cols`: the four columns, exactly as listed in the source. -/
def get_cols (g : Game) : List (List Nat) :=
  [[g.state.getD 0 0, g.state.getD 4 0, g.state.getD 8 0, g.state.getD 12 0],
   [g.state.getD 1 0, g.state.getD 5 0, g.state.getD 9 0, g.state.getD 13 0],
   [g.state.getD 2 0, g.state.getD 6 0, g.state.getD 10 0, g.state.getD 14 0],
   [g.state.getD 3 0, g.state.getD 7 0, g.state.getD 11 0, g.state.getD 15 0]]

/-- `Game::get_condensed_rows`. -/
def get_condensed_rows (g : Game) : List (List Nat) := (get_rows g).map condense

/-- `Game::get_condensed_cols`. -/
def get_condensed_cols (g : Game) : List (List Nat) := (get_cols g).map condense

/-- The placement step inside `Game::shift`: for `Up`/`Left` (or a full line)
keep the merged line as is, otherwise rotate the zeros to the front
(`[&v[sp..], &v[0..sp]].concat()` with `sp = position of first 0, unwrap_or(3)`). -/
def place (input : Move) (v : List Nat) : List Nat :=
  if input = Move.Up ∨ input = Move.Left ∨ ¬ v.contains 0 then v
  else
    let sp := (position0 v).getD 3
    v.drop sp ++ v.take sp

/-- The `transpose::transpose(&new_state, &mut transposed, 4, 4)` call:
`transposed[x*4 + y] = new_state[y*4 + x]`. -/
def transpose16 (s : List Nat) : List Nat :=
  [s.getD 0 0, s.getD 4 0, s.getD 8 0, s.getD 12 0,
   s.getD 1 0, s.getD 5 0, s.getD 9 0, s.getD 13 0,
   s.getD 2 0, s.getD 6 0, s.getD 10 0, s.getD 14 0,
   s.getD 3 0, s.getD 7 0, s.getD 11 0, s.getD 15 0]

/-- `Game::shift`: condense the rows (Left/Right) or columns (Up/Down),
merge each line (accumulating score), re-place the zeros for Down/Right,
flatten, and transpose back for Up/Down.  `num_moves` is untouched. -/
def shift (g : Game) (input : Move) : Game :=
  let condensed := match input with
    | .Up | .Down => get_condensed_cols g
    | .Left | .Right => get_condensed_rows g
  let merged := condensed.map merge_duplicates
  let gained := (merged.map Prod.snd).foldl (· + ·) 0
  let placed := (merged.map Prod.fst).map (place input)
  let ns := placed.flatten
  let ns2 := match input with
    | .Up | .Down => transpose16 ns
    | .Left | .Right => ns
  { state := ns2, score := g.score + gained, num_moves := g.num_moves }

/-- `Game::available_moves`: the moves whose speculative shift changes `state`. -/
def available_moves (g : Game) : List Move :=
  Move.iterOrder.filter (fun m => decide ((shift g m).state ≠ g.state))

/-- The empty-cell index list computed both by `Game::generate_tile` and by
`empty_idxs` in `expectimax.rs`:
`state.iter().enumerate().filter(|(_, v)| v == 0).map(|(i, _)| i)`. -/
def empty_indexes (g : Game) : List Nat :=
  (List.range g.state.length).filter (fun i => g.state.getD i 0 == 0)

/-- `Game::generate_tile`, with the two RNG draws explicit: `pLow` stands for
`fastrand::f32() < 0.9` and `c_idx` for `fastrand::usize(0..len)`. -/
def generate_tile (pLow : Bool) (c_idx : Nat) (g : Game) : Game :=
  let n := if pLow then 1 else 2
  let empty := empty_indexes g
  if empty.length = 0 then g
  else
    let chosen_index := empty.getD c_idx 0
    { g with state := g.state.set chosen_index n }

/-- `Game::make_move`: shift, compare pre/post state; on no change return
`false` (keeping the shifted value, which is what the mutated `self` holds);
otherwise spawn a tile, bump `num_moves`, return `true`. -/
def make_move (pLow : Bool) (c_idx : Nat) (g : Game) (input : Move) : Bool × Game :=
  let g1 := shift g input
  if g.state = g1.state then (false, g1)
  else
    let g2 := generate_tile pLow c_idx g1
    (true, { g2 with num_moves := g2.num_moves + 1 })

/-- The Rust `row[i] == row[i+1]` scan (over `i` in `0..3`) used by
`Game::game_over` on a condensed line. -/
def hasAdjacentPair (v : List Nat) : Bool :=
  (v.getD 0 0 == v.getD 1 0) || (v.getD 1 0 == v.getD 2 0) || (v.getD 2 0 == v.getD 3 0)

/-- `Game::game_over`: false if any cell is empty; otherwise true iff no
condensed row and no condensed column has two adjacent equal cells. -/
def game_over (g : Game) : Bool :=
  if g.state.any (fun n => n == 0) then false
  else
    !((get_condensed_rows g).any hasAdjacentPair) &&
    !((get_condensed_cols g).any hasAdjacentPair)

/-- `Game::set_tile(x, y, value)`: `state[x + y*4] = value`. -/
def set_tile (g : Game) (x y value : Nat) : Game :=
  { g with state := g.state.set (x + y * 4) value }

/-- `EnumMap<Move, usize>` is a total map from moves to scores. -/
def MoveScores := Move → Nat

/-- `MaxMove::max_move` in `agent/mod.rs`:
`self.iter().max_by_key(|(_, score)| *score).unwrap().0`.
Rust's `Iterator::max_by_key` returns the **last** element among equal maxima,
i.e. the fold keeps the newer element whenever its key is `≥` the current one. -/
def max_move (s : MoveScores) : Move :=
  Move.iterOrder.foldl (fun acc m => if s acc > s m then acc else m) Move.Up

/-- The `idx_to_tile` fold in `expectimax_recurse`: for each of the first
`num_tiles` shuffled empty indexes, push `(i, 1, 0.9)` and `(i, 2, 0.1)`. -/
def idx_to_tile (shuffled : List Nat) (num_tiles : Nat) : List (Nat × Nat × ℚ) :=
  (shuffled.take num_tiles).foldl
    (fun acc i => acc ++ [(i, 1, (9 : ℚ) / 10), (i, 2, (1 : ℚ) / 10)]) []

/-- The `games_to_avg` construction in `expectimax_recurse`: if `idx_to_tile`
is empty the singleton `[(game, 1.0)]`, otherwise one hypothetical game per
`(idx, value, weight)` triple, spawned via `set_tile(idx % 4, idx / 4, value)`. -/
def games_to_avg (g : Game) (shuffled : List Nat) (num_tiles : Nat) : List (Game × ℚ) :=
  let itt := idx_to_tile shuffled num_tiles
  if itt.length = 0 then [(g, 1)]
  else itt.map (fun t => (set_tile g (t.1 % 4) (t.1 / 4) t.2.1, t.2.2))

/-- The loop of `simulate_random_game` in `agent/random.rs`, driven by an
explicit list of RNG draws: each element carries the random move choice and
the two draws `generate_tile` would consume. -/
def run_random_moves (draws : List (Move × Bool × Nat)) (g : Game) : Game :=
  draws.foldl (fun g' d => (make_move d.2.1 d.2.2 g' d.1).snd) g


/-! ### Verification-layer definitions

The following predicates and abbreviations are not Rust functions; they name
line-level notions used to state and prove properties of `shift`. -/

/-- A line is packed when no zero precedes a nonzero cell (the normal form
of a condensed-and-merged line, absent `u8` wraparound). -/
def isPacked (v : List Nat) : Bool :=
  ((v.getD 0 0 != 0) || (v.getD 1 0 == 0)) &&
  ((v.getD 1 0 != 0) || (v.getD 2 0 == 0)) &&
  ((v.getD 2 0 != 0) || (v.getD 3 0 == 0))

/-- No two adjacent cells of the line would merge: the merge condition
`v[i] != 0 && v[i] == v[i+1]` fails for each `i` in `0..3`. -/
def noMergeablePair (v : List Nat) : Bool :=
  (!((v.getD 0 0 != 0) && (v.getD 0 0 == v.getD 1 0))) &&
  (!((v.getD 1 0 != 0) && (v.getD 1 0 == v.getD 2 0))) &&
  (!((v.getD 2 0 != 0) && (v.getD 2 0 == v.getD 3 0)))

/-- One fully processed line of `shift`: condense, merge, re-place zeros. -/
def lineOut (m : Move) (v : List Nat) : List Nat :=
  place m (merge_duplicates (condense v)).fst

/-- Score gained by `shift` from one line. -/
def lineGain (v : List Nat) : Nat := (merge_duplicates (condense v)).snd

/-- The lines of the board along the axis of a move: rows for Left/Right,
columns for Up/Down. -/
def linesOf (m : Move) (g : Game) : List (List Nat) :=
  match m with
  | .Up | .Down => get_cols g
  | .Left | .Right => get_rows g

/-! ### Line-level lemmas -/

theorem exists4 (l : List Nat) (h : l.length = 4) :
    ∃ a b c d, l = [a, b, c, d] :=
  ⟨l.getD 0 0, l.getD 1 0, l.getD 2 0, l.getD 3 0, by
    apply List.ext_getElem (by simp [h])
    intro i h1 h2
    have hi : i < 4 := by omega
    interval_cases i <;> simp [List.getD_eq_getElem, List.getElem?_eq_getElem h1]⟩

theorem merge_eval_0 : merge_duplicates [0, 0, 0, 0] = ([0, 0, 0, 0], 0) := by decide

theorem merge_eval_1 (x : Nat) (hx : x ≠ 0) :
    merge_duplicates [x, 0, 0, 0] = ([x, 0, 0, 0], 0) := by
  simp [merge_duplicates, mergeLoop, hx]

theorem merge_eval_2_eq (x y : Nat) (hx : x ≠ 0) (hxy : x = y) :
    merge_duplicates [x, y, 0, 0] = ([(x + 1) % 256, 0, 0, 0], 2 ^ ((x + 1) % 256)) := by
  subst hxy
  simp [merge_duplicates, mergeLoop, hx]

theorem merge_eval_2_ne (x y : Nat) (hx : x ≠ 0) (hy : y ≠ 0) (hxy : x ≠ y) :
    merge_duplicates [x, y, 0, 0] = ([x, y, 0, 0], 0) := by
  simp [merge_duplicates, mergeLoop, hx, hy, hxy]

theorem merge_eval_3_a (x y z : Nat) (hx : x ≠ 0) (hz : z ≠ 0) (hxy : x = y) :
    merge_duplicates [x, y, z, 0]
      = ([(x + 1) % 256, z, 0, 0], 2 ^ ((x + 1) % 256)) := by
  subst hxy
  simp [merge_duplicates, mergeLoop, hx, hz]

theorem merge_eval_3_b (x y z : Nat) (hx : x ≠ 0) (hy : y ≠ 0) (hxy : x ≠ y) (hyz : y = z) :
    merge_duplicates [x, y, z, 0]
      = ([x, (y + 1) % 256, 0, 0], 2 ^ ((y + 1) % 256)) := by
  subst hyz
  simp [merge_duplicates, mergeLoop, hx, hy, hxy]

theorem merge_eval_3_c (x y z : Nat) (hx : x ≠ 0) (hy : y ≠ 0) (hz : z ≠ 0)
    (hxy : x ≠ y) (hyz : y ≠ z) :
    merge_duplicates [x, y, z, 0] = ([x, y, z, 0], 0) := by
  simp [merge_duplicates, mergeLoop, hx, hy, hz, hxy, hyz]

theorem merge_eval_4_a (x y z w : Nat) (hx : x ≠ 0) (hz : z ≠ 0) (hxy : x = y) (hzw : z = w) :
    merge_duplicates [x, y, z, w]
      = ([(x + 1) % 256, (z + 1) % 256, 0, 0], 2 ^ ((x + 1) % 256) + 2 ^ ((z + 1) % 256)) := by
  subst hxy; subst hzw
  simp [merge_duplicates, mergeLoop, hx, hz]

theorem merge_eval_4_b (x y z w : Nat) (hx : x ≠ 0) (hz : z ≠ 0) (hw : w ≠ 0)
    (hxy : x = y) (hzw : z ≠ w) :
    merge_duplicates [x, y, z, w]
      = ([(x + 1) % 256, z, w, 0], 2 ^ ((x + 1) % 256)) := by
  subst hxy
  simp [merge_duplicates, mergeLoop, hx, hz, hw, hzw]

theorem merge_eval_4_c (x y z w : Nat) (hx : x ≠ 0) (hy : y ≠ 0) (hw : w ≠ 0)
    (hxy : x ≠ y) (hyz : y = z) :
    merge_duplicates [x, y, z, w]
      = ([x, (y + 1) % 256, w, 0], 2 ^ ((y + 1) % 256)) := by
  subst hyz
  simp [merge_duplicates, mergeLoop, hx, hy, hw, hxy]

theorem merge_eval_4_d (x y z w : Nat) (hx : x ≠ 0) (hy : y ≠ 0) (hz : z ≠ 0)
    (hxy : x ≠ y) (hyz : y ≠ z) (hzw : z = w) :
    merge_duplicates [x, y, z, w]
      = ([x, y, (z + 1) % 256, 0], 2 ^ ((z + 1) % 256)) := by
  subst hzw
  simp [merge_duplicates, mergeLoop, hx, hy, hz, hxy, hyz]

theorem merge_eval_4_e (x y z w : Nat) (hx : x ≠ 0) (hy : y ≠ 0) (hz : z ≠ 0) (hw : w ≠ 0)
    (hxy : x ≠ y) (hyz : y ≠ z) (hzw : z ≠ w) :
    merge_duplicates [x, y, z, w] = ([x, y, z, w], 0) := by
  simp [merge_duplicates, mergeLoop, hx, hy, hz, hw, hxy, hyz, hzw]

theorem packed_cases (u : List Nat) (hlen : u.length = 4) (hp : isPacked u = true) :
    u = [0, 0, 0, 0] ∨ (∃ x, x ≠ 0 ∧ u = [x, 0, 0, 0]) ∨
    (∃ x y, x ≠ 0 ∧ y ≠ 0 ∧ u = [x, y, 0, 0]) ∨
    (∃ x y z, x ≠ 0 ∧ y ≠ 0 ∧ z ≠ 0 ∧ u = [x, y, z, 0]) ∨
    (∃ x y z w, x ≠ 0 ∧ y ≠ 0 ∧ z ≠ 0 ∧ w ≠ 0 ∧ u = [x, y, z, w]) := by
  obtain ⟨a, b, c, d, rfl⟩ := exists4 u hlen
  by_cases ha : a = 0 <;> by_cases hb : b = 0 <;> by_cases hc : c = 0 <;> by_cases hd : d = 0 <;>
    simp [isPacked, ha, hb, hc, hd] at hp ⊢ <;> omega

theorem condense_packed (a b c d : Nat) : isPacked (condense [a, b, c, d]) = true := by
  by_cases ha : a = 0 <;> by_cases hb : b = 0 <;> by_cases hc : c = 0 <;> by_cases hd : d = 0 <;>
    simp [condense, insertFirstEmpty, first_empty, position0, isPacked, ha, hb, hc, hd]

theorem condense_count (a b c d : Nat) :
    (condense [a, b, c, d]).count 0 = ([a, b, c, d] : List Nat).count 0 := by
  by_cases ha : a = 0 <;> by_cases hb : b = 0 <;> by_cases hc : c = 0 <;> by_cases hd : d = 0 <;>
    simp [condense, insertFirstEmpty, first_empty, position0, List.count_cons,
      ha, hb, hc, hd]

theorem condense_length (v : List Nat) : (condense v).length = 4 := by
  suffices h : ∀ (l : List Nat) (acc : List Nat),
      (l.foldl insertFirstEmpty acc).length = acc.length by
    simp [condense, h]
  intro l
  induction l with
  | nil => intro acc; rfl
  | cons x xs ih => intro acc; simp [List.foldl_cons, insertFirstEmpty, ih, List.length_set]

theorem merge_count_facts (u : List Nat) (hlen : u.length = 4) (hp : isPacked u = true) :
    (merge_duplicates u).fst.length = 4 ∧
    u.count 0 ≤ (merge_duplicates u).fst.count 0 ∧
    (0 < (merge_duplicates u).snd → u.count 0 < (merge_duplicates u).fst.count 0) := by
  rcases packed_cases u hlen hp with h | ⟨x, hx, h⟩ | ⟨x, y, hx, hy, h⟩ |
    ⟨x, y, z, hx, hy, hz, h⟩ | ⟨x, y, z, w, hx, hy, hz, hw, h⟩ <;> subst h
  · simp [merge_eval_0]
  · simp [merge_eval_1 x hx]
  · rcases eq_or_ne x y with hxy | hxy
    · simp [merge_eval_2_eq x y hx hxy, List.count_cons, hx, hy]
      omega
    · simp [merge_eval_2_ne x y hx hy hxy]
  · rcases eq_or_ne x y with hxy | hxy
    · simp [merge_eval_3_a x y z hx hz hxy, List.count_cons, hx, hy, hz]
      omega
    · rcases eq_or_ne y z with hyz | hyz
      · simp [merge_eval_3_b x y z hx hy hxy hyz, List.count_cons, hx, hy, hz]
        omega
      · simp [merge_eval_3_c x y z hx hy hz hxy hyz]
  · rcases eq_or_ne x y with hxy | hxy
    · rcases eq_or_ne z w with hzw | hzw
      · simp [merge_eval_4_a x y z w hx hz hxy hzw, List.count_cons, hx, hy, hz, hw]
      · simp [merge_eval_4_b x y z w hx hz hw hxy hzw, List.count_cons, hx, hy, hz, hw]
    · rcases eq_or_ne y z with hyz | hyz
      · simp [merge_eval_4_c x y z w hx hy hw hxy hyz, List.count_cons, hx, hy, hz, hw]
      · rcases eq_or_ne z w with hzw | hzw
        · simp [merge_eval_4_d x y z w hx hy hz hxy hyz hzw, List.count_cons, hx, hy, hz, hw]
        · simp [merge_eval_4_e x y z w hx hy hz hw hxy hyz hzw]

theorem merge_id_of_stable (u : List Nat) (hlen : u.length = 4) (hp : isPacked u = true)
    (hnm : noMergeablePair u = true) : merge_duplicates u = (u, 0) := by
  rcases packed_cases u hlen hp with h | ⟨x, hx, h⟩ | ⟨x, y, hx, hy, h⟩ |
    ⟨x, y, z, hx, hy, hz, h⟩ | ⟨x, y, z, w, hx, hy, hz, hw, h⟩ <;> subst h
  · exact merge_eval_0
  · exact merge_eval_1 x hx
  · simp [noMergeablePair, hx, hy] at hnm
    exact merge_eval_2_ne x y hx hy (by omega)
  · simp [noMergeablePair, hx, hy, hz] at hnm
    exact merge_eval_3_c x y z hx hy hz (by omega) (by omega)
  · simp [noMergeablePair, hx, hy, hz, hw] at hnm
    exact merge_eval_4_e x y z w hx hy hz hw (by omega) (by omega) (by omega)

theorem merge_packed_of_bounded (u : List Nat) (hlen : u.length = 4)
    (hp : isPacked u = true) (hb : ∀ x ∈ u, x ≤ 254) :
    isPacked (merge_duplicates u).fst = true := by
  rcases packed_cases u hlen hp with h | ⟨x, hx, h⟩ | ⟨x, y, hx, hy, h⟩ |
    ⟨x, y, z, hx, hy, hz, h⟩ | ⟨x, y, z, w, hx, hy, hz, hw, h⟩ <;> subst h <;>
    simp only [List.mem_cons, List.mem_singleton, forall_eq_or_imp, forall_eq] at hb
  · simp [merge_eval_0, isPacked]
  · simp [merge_eval_1 x hx, isPacked, hx]
  · rcases eq_or_ne x y with hxy | hxy
    · have : (x + 1) % 256 = x + 1 := Nat.mod_eq_of_lt (by omega)
      simp [merge_eval_2_eq x y hx hxy, isPacked, this]
    · simp [merge_eval_2_ne x y hx hy hxy, isPacked, hx, hy]
  · rcases eq_or_ne x y with hxy | hxy
    · have : (x + 1) % 256 = x + 1 := Nat.mod_eq_of_lt (by omega)
      simp [merge_eval_3_a x y z hx hz hxy, isPacked, this, hz]
    · rcases eq_or_ne y z with hyz | hyz
      · have : (y + 1) % 256 = y + 1 := Nat.mod_eq_of_lt (by omega)
        simp [merge_eval_3_b x y z hx hy hxy hyz, isPacked, this, hx]
      · simp [merge_eval_3_c x y z hx hy hz hxy hyz, isPacked, hx, hy, hz]
  · rcases eq_or_ne x y with hxy | hxy
    · rcases eq_or_ne z w with hzw | hzw
      · have h1 : (x + 1) % 256 = x + 1 := Nat.mod_eq_of_lt (by omega)
        have h2 : (z + 1) % 256 = z + 1 := Nat.mod_eq_of_lt (by omega)
        simp [merge_eval_4_a x y z w hx hz hxy hzw, isPacked, h1, h2]
      · have h1 : (x + 1) % 256 = x + 1 := Nat.mod_eq_of_lt (by omega)
        simp [merge_eval_4_b x y z w hx hz hw hxy hzw, isPacked, h1, hz, hw]
    · rcases eq_or_ne y z with hyz | hyz
      · have h1 : (y + 1) % 256 = y + 1 := Nat.mod_eq_of_lt (by omega)
        simp [merge_eval_4_c x y z w hx hy hw hxy hyz, isPacked, h1, hx, hw]
      · rcases eq_or_ne z w with hzw | hzw
        · have h1 : (z + 1) % 256 = z + 1 := Nat.mod_eq_of_lt (by omega)
          simp [merge_eval_4_d x y z w hx hy hz hxy hyz hzw, isPacked, h1, hx, hy]
        · simp [merge_eval_4_e x y z w hx hy hz hw hxy hyz hzw, isPacked, hx, hy, hz, hw]

theorem place_up (v : List Nat) : place Move.Up v = v := by simp [place]

theorem place_left (v : List Nat) : place Move.Left v = v := by simp [place]

theorem place_down_eq_right (v : List Nat) : place Move.Down v = place Move.Right v := by
  simp [place]

theorem place_length (m : Move) (v : List Nat) : (place m v).length = v.length := by
  unfold place
  split
  · rfl
  · simp; omega

theorem place_count (m : Move) (v : List Nat) (a : Nat) :
    (place m v).count a = v.count a := by
  unfold place
  split
  · rfl
  · rw [List.count_append]
    conv_rhs => rw [← List.take_append_drop ((position0 v).getD 3) v]
    rw [List.count_append]
    omega

theorem mergeLoop_fst_length (v : List Nat) :
    ∀ (fuel i j : Nat) (r : List Nat) (s : Nat),
      (mergeLoop v fuel i j r s).fst.length = r.length := by
  intro fuel
  induction fuel with
  | zero => intro i j r s; rfl
  | succ n ih =>
    intro i j r s
    rw [mergeLoop]
    split
    · split
      · rw [ih]; simp
      · split
        · rw [ih]; simp
        · rw [ih]
    · rfl

theorem merge_fst_length (v : List Nat) : (merge_duplicates v).fst.length = 4 :=
  mergeLoop_fst_length v 4 0 0 [0, 0, 0, 0] 0

/-- Length of one fully processed line. -/
theorem lineOut_length (m : Move) (v : List Nat) :
    (place m (merge_duplicates (condense v)).fst).length = 4 := by
  rw [place_length, merge_fst_length]

theorem condense_id_of_packed (u : List Nat) (hlen : u.length = 4)
    (hp : isPacked u = true) : condense u = u := by
  rcases packed_cases u hlen hp with h | ⟨x, hx, h⟩ | ⟨x, y, hx, hy, h⟩ |
    ⟨x, y, z, hx, hy, hz, h⟩ | ⟨x, y, z, w, hx, hy, hz, hw, h⟩ <;> subst h
  · simp [condense, insertFirstEmpty, first_empty, position0]
  · simp [condense, insertFirstEmpty, first_empty, position0, hx]
  · simp [condense, insertFirstEmpty, first_empty, position0, hx, hy]
  · simp [condense, insertFirstEmpty, first_empty, position0, hx, hy, hz]
  · simp [condense, insertFirstEmpty, first_empty, position0, hx, hy, hz, hw]

theorem condense_place_right (u : List Nat) (hlen : u.length = 4)
    (hp : isPacked u = true) : condense (place Move.Right u) = u := by
  rcases packed_cases u hlen hp with h | ⟨x, hx, h⟩ | ⟨x, y, hx, hy, h⟩ |
    ⟨x, y, z, hx, hy, hz, h⟩ | ⟨x, y, z, w, hx, hy, hz, hw, h⟩ <;> subst h
  · simp [place, condense, insertFirstEmpty, first_empty, position0]
  · simp [place, position0, hx]
    simp [condense, insertFirstEmpty, first_empty, position0, hx]
  · simp [place, position0, hx, hy]
    simp [condense, insertFirstEmpty, first_empty, position0, hx, hy]
  · simp [place, position0, hx, hy, hz]
    simp [condense, insertFirstEmpty, first_empty, position0, hx, hy, hz]
  · simp [place, position0, hx, hy, hz, hw, Ne.symm hx, Ne.symm hy, Ne.symm hz, Ne.symm hw]
    simp [condense, insertFirstEmpty, first_empty, position0, hx, hy, hz, hw]

theorem noMergeablePair_place_right (u : List Nat) (hlen : u.length = 4)
    (hp : isPacked u = true) (h : noMergeablePair (place Move.Right u) = true) :
    noMergeablePair u = true := by
  rcases packed_cases u hlen hp with hc | ⟨x, hx, hc⟩ | ⟨x, y, hx, hy, hc⟩ |
    ⟨x, y, z, hx, hy, hz, hc⟩ | ⟨x, y, z, w, hx, hy, hz, hw, hc⟩ <;> subst hc
  · simp [noMergeablePair]
  · simp [noMergeablePair, hx]
  · simp [place, position0, hx, hy] at h
    simp [noMergeablePair, hx, hy] at h ⊢
    omega
  · simp [place, position0, hx, hy, hz] at h
    simp [noMergeablePair, hx, hy, hz] at h ⊢
    omega
  · simp [place, position0, hx, hy, hz, hw, Ne.symm hx, Ne.symm hy, Ne.symm hz,
      Ne.symm hw] at h
    simp [noMergeablePair, hx, hy, hz, hw] at h ⊢
    omega

theorem shift_eval_left (a0 a1 a2 a3 a4 a5 a6 a7 a8 a9 a10 a11 a12 a13 a14 a15 sc nm : Nat) :
    shift ⟨[a0, a1, a2, a3, a4, a5, a6, a7, a8, a9, a10, a11, a12, a13, a14, a15], sc, nm⟩
      Move.Left =
    ⟨lineOut Move.Left [a0, a1, a2, a3] ++ (lineOut Move.Left [a4, a5, a6, a7] ++
       (lineOut Move.Left [a8, a9, a10, a11] ++ lineOut Move.Left [a12, a13, a14, a15])),
     sc + (lineGain [a0, a1, a2, a3] + lineGain [a4, a5, a6, a7] +
       lineGain [a8, a9, a10, a11] + lineGain [a12, a13, a14, a15]), nm⟩ := by
  simp [shift, get_condensed_rows, get_rows, lineOut, lineGain]

theorem shift_eval_right (a0 a1 a2 a3 a4 a5 a6 a7 a8 a9 a10 a11 a12 a13 a14 a15 sc nm : Nat) :
    shift ⟨[a0, a1, a2, a3, a4, a5, a6, a7, a8, a9, a10, a11, a12, a13, a14, a15], sc, nm⟩
      Move.Right =
    ⟨lineOut Move.Right [a0, a1, a2, a3] ++ (lineOut Move.Right [a4, a5, a6, a7] ++
       (lineOut Move.Right [a8, a9, a10, a11] ++ lineOut Move.Right [a12, a13, a14, a15])),
     sc + (lineGain [a0, a1, a2, a3] + lineGain [a4, a5, a6, a7] +
       lineGain [a8, a9, a10, a11] + lineGain [a12, a13, a14, a15]), nm⟩ := by
  simp [shift, get_condensed_rows, get_rows, lineOut, lineGain]

theorem shift_eval_up (a0 a1 a2 a3 a4 a5 a6 a7 a8 a9 a10 a11 a12 a13 a14 a15 sc nm : Nat) :
    shift ⟨[a0, a1, a2, a3, a4, a5, a6, a7, a8, a9, a10, a11, a12, a13, a14, a15], sc, nm⟩
      Move.Up =
    ⟨transpose16 (lineOut Move.Up [a0, a4, a8, a12] ++ (lineOut Move.Up [a1, a5, a9, a13] ++
       (lineOut Move.Up [a2, a6, a10, a14] ++ lineOut Move.Up [a3, a7, a11, a15]))),
     sc + (lineGain [a0, a4, a8, a12] + lineGain [a1, a5, a9, a13] +
       lineGain [a2, a6, a10, a14] + lineGain [a3, a7, a11, a15]), nm⟩ := by
  simp [shift, get_condensed_cols, get_cols, lineOut, lineGain]

theorem shift_eval_down (a0 a1 a2 a3 a4 a5 a6 a7 a8 a9 a10 a11 a12 a13 a14 a15 sc nm : Nat) :
    shift ⟨[a0, a1, a2, a3, a4, a5, a6, a7, a8, a9, a10, a11, a12, a13, a14, a15], sc, nm⟩
      Move.Down =
    ⟨transpose16 (lineOut Move.Down [a0, a4, a8, a12] ++ (lineOut Move.Down [a1, a5, a9, a13] ++
       (lineOut Move.Down [a2, a6, a10, a14] ++ lineOut Move.Down [a3, a7, a11, a15]))),
     sc + (lineGain [a0, a4, a8, a12] + lineGain [a1, a5, a9, a13] +
       lineGain [a2, a6, a10, a14] + lineGain [a3, a7, a11, a15]), nm⟩ := by
  simp [shift, get_condensed_cols, get_cols, lineOut, lineGain]

theorem exists16 (l : List Nat) (h : l.length = 16) :
    ∃ a0 a1 a2 a3 a4 a5 a6 a7 a8 a9 a10 a11 a12 a13 a14 a15,
      l = [a0, a1, a2, a3, a4, a5, a6, a7, a8, a9, a10, a11, a12, a13, a14, a15] :=
  ⟨l.getD 0 0, l.getD 1 0, l.getD 2 0, l.getD 3 0, l.getD 4 0, l.getD 5 0, l.getD 6 0,
   l.getD 7 0, l.getD 8 0, l.getD 9 0, l.getD 10 0, l.getD 11 0, l.getD 12 0, l.getD 13 0,
   l.getD 14 0, l.getD 15 0, by
    apply List.ext_getElem (by simp [h])
    intro i h1 h2
    have hi : i < 16 := by omega
    interval_cases i <;> simp [List.getD_eq_getElem, List.getElem?_eq_getElem h1]⟩

theorem condense_mem (a b c d x : Nat) (hx : x ∈ condense [a, b, c, d]) :
    x = 0 ∨ x = a ∨ x = b ∨ x = c ∨ x = d := by
  by_cases ha : a = 0 <;> by_cases hb : b = 0 <;> by_cases hc : c = 0 <;> by_cases hd : d = 0 <;>
    simp [condense, insertFirstEmpty, first_empty, position0, ha, hb, hc, hd] at hx <;>
    tauto

theorem condense_id_of_nonzero (a b c d : Nat) (ha : a ≠ 0) (hb : b ≠ 0) (hc : c ≠ 0)
    (hd : d ≠ 0) : condense [a, b, c, d] = [a, b, c, d] := by
  simp [condense, insertFirstEmpty, first_empty, position0, ha, hb, hc, hd]

theorem place_id_of_nonzero (m : Move) (a b c d : Nat) (ha : a ≠ 0) (hb : b ≠ 0) (hc : c ≠ 0)
    (hd : d ≠ 0) : place m [a, b, c, d] = [a, b, c, d] := by
  cases m <;>
    simp [place, Ne.symm ha, Ne.symm hb, Ne.symm hc, Ne.symm hd]

theorem lineOut_count_ge (m : Move) (a b c d : Nat) :
    ([a, b, c, d] : List Nat).count 0 ≤ (lineOut m [a, b, c, d]).count 0 := by
  rw [lineOut, place_count]
  have h := merge_count_facts (condense [a, b, c, d]) (condense_length _)
    (condense_packed a b c d)
  rw [condense_count] at h
  exact h.2.1

theorem lineOut_count_strict (m : Move) (a b c d : Nat) (hg : 0 < lineGain [a, b, c, d]) :
    ([a, b, c, d] : List Nat).count 0 < (lineOut m [a, b, c, d]).count 0 := by
  rw [lineOut, place_count]
  have h := merge_count_facts (condense [a, b, c, d]) (condense_length _)
    (condense_packed a b c d)
  rw [condense_count] at h
  exact h.2.2 hg

theorem lineGain_zero_of_fixed (m : Move) (a b c d : Nat)
    (h : lineOut m [a, b, c, d] = [a, b, c, d]) : lineGain [a, b, c, d] = 0 := by
  by_contra hg
  have hlt := lineOut_count_strict m a b c d (Nat.pos_of_ne_zero hg)
  rw [h] at hlt
  omega

theorem lineOut_id_full (m : Move) (a b c d : Nat) (ha : a ≠ 0) (hb : b ≠ 0) (hc : c ≠ 0)
    (hd : d ≠ 0) (hab : a ≠ b) (hbc : b ≠ c) (hcd : c ≠ d) :
    lineOut m [a, b, c, d] = [a, b, c, d] ∧ lineGain [a, b, c, d] = 0 := by
  rw [lineOut, lineGain, condense_id_of_nonzero a b c d ha hb hc hd,
    merge_eval_4_e a b c d ha hb hc hd hab hbc hcd]
  exact ⟨place_id_of_nonzero m a b c d ha hb hc hd, rfl⟩

theorem count_transpose16 (b0 b1 b2 b3 b4 b5 b6 b7 b8 b9 b10 b11 b12 b13 b14 b15 : Nat) :
    (transpose16 [b0, b1, b2, b3, b4, b5, b6, b7, b8, b9, b10, b11, b12, b13, b14, b15]).count 0
      = ([b0, b1, b2, b3, b4, b5, b6, b7, b8, b9, b10, b11, b12, b13, b14, b15] :
          List Nat).count 0 := by
  simp [transpose16, List.count_cons]
  ring

theorem line_stable (m : Move) (a b c d : Nat)
    (h254 : a ≤ 254 ∧ b ≤ 254 ∧ c ≤ 254 ∧ d ≤ 254)
    (hnm : noMergeablePair (lineOut m [a, b, c, d]) = true) :
    lineOut m (lineOut m [a, b, c, d]) = lineOut m [a, b, c, d] ∧
    lineGain (lineOut m [a, b, c, d]) = 0 := by
  have hub : ∀ x ∈ condense [a, b, c, d], x ≤ 254 := by
    intro x hx
    rcases condense_mem a b c d x hx with h | h | h | h | h <;> omega
  have hup : isPacked (merge_duplicates (condense [a, b, c, d])).fst = true :=
    merge_packed_of_bounded _ (condense_length _) (condense_packed a b c d) hub
  have hulen : (merge_duplicates (condense [a, b, c, d])).fst.length = 4 :=
    merge_fst_length _
  cases m
  case Up =>
    simp only [lineOut, lineGain, place_up] at hnm ⊢
    rw [condense_id_of_packed _ hulen hup, merge_id_of_stable _ hulen hup hnm]
    exact ⟨rfl, rfl⟩
  case Left =>
    simp only [lineOut, lineGain, place_left] at hnm ⊢
    rw [condense_id_of_packed _ hulen hup, merge_id_of_stable _ hulen hup hnm]
    exact ⟨rfl, rfl⟩
  case Right =>
    simp only [lineOut, lineGain] at hnm ⊢
    have hnmu := noMergeablePair_place_right _ hulen hup hnm
    rw [condense_place_right _ hulen hup, merge_id_of_stable _ hulen hup hnmu]
    exact ⟨rfl, rfl⟩
  case Down =>
    simp only [lineOut, lineGain, place_down_eq_right] at hnm ⊢
    have hnmu := noMergeablePair_place_right _ hulen hup hnm
    rw [condense_place_right _ hulen hup, merge_id_of_stable _ hulen hup hnmu]
    exact ⟨rfl, rfl⟩

theorem shift_fixed_of_game_over
    (a0 a1 a2 a3 a4 a5 a6 a7 a8 a9 a10 a11 a12 a13 a14 a15 sc nm : Nat)
    (hgo : game_over ⟨[a0, a1, a2, a3, a4, a5, a6, a7, a8, a9, a10, a11, a12, a13, a14, a15],
      sc, nm⟩ = true) (m : Move) :
    (shift ⟨[a0, a1, a2, a3, a4, a5, a6, a7, a8, a9, a10, a11, a12, a13, a14, a15], sc, nm⟩
      m).state
      = [a0, a1, a2, a3, a4, a5, a6, a7, a8, a9, a10, a11, a12, a13, a14, a15] := by
  simp only [game_over, get_condensed_rows, get_condensed_cols, get_rows, get_cols] at hgo
  simp at hgo
  obtain ⟨⟨h0, h1, h2, h3, h4, h5, h6, h7, h8, h9, h10, h11, h12, h13, h14, h15⟩,
    ⟨hr0, hr1, hr2, hr3⟩, hc0, hc1, hc2, hc3⟩ := hgo
  rw [condense_id_of_nonzero a0 a1 a2 a3 h0 h1 h2 h3] at hr0
  rw [condense_id_of_nonzero a4 a5 a6 a7 h4 h5 h6 h7] at hr1
  rw [condense_id_of_nonzero a8 a9 a10 a11 h8 h9 h10 h11] at hr2
  rw [condense_id_of_nonzero a12 a13 a14 a15 h12 h13 h14 h15] at hr3
  rw [condense_id_of_nonzero a0 a4 a8 a12 h0 h4 h8 h12] at hc0
  rw [condense_id_of_nonzero a1 a5 a9 a13 h1 h5 h9 h13] at hc1
  rw [condense_id_of_nonzero a2 a6 a10 a14 h2 h6 h10 h14] at hc2
  rw [condense_id_of_nonzero a3 a7 a11 a15 h3 h7 h11 h15] at hc3
  simp [hasAdjacentPair] at hr0 hr1 hr2 hr3 hc0 hc1 hc2 hc3
  obtain ⟨⟨hr0a, hr0b⟩, hr0c⟩ := hr0
  obtain ⟨⟨hr1a, hr1b⟩, hr1c⟩ := hr1
  obtain ⟨⟨hr2a, hr2b⟩, hr2c⟩ := hr2
  obtain ⟨⟨hr3a, hr3b⟩, hr3c⟩ := hr3
  obtain ⟨⟨hc0a, hc0b⟩, hc0c⟩ := hc0
  obtain ⟨⟨hc1a, hc1b⟩, hc1c⟩ := hc1
  obtain ⟨⟨hc2a, hc2b⟩, hc2c⟩ := hc2
  obtain ⟨⟨hc3a, hc3b⟩, hc3c⟩ := hc3
  cases m
  case Left =>
    rw [shift_eval_left,
      (lineOut_id_full _ a0 a1 a2 a3 h0 h1 h2 h3 hr0a hr0b hr0c).1,
      (lineOut_id_full _ a4 a5 a6 a7 h4 h5 h6 h7 hr1a hr1b hr1c).1,
      (lineOut_id_full _ a8 a9 a10 a11 h8 h9 h10 h11 hr2a hr2b hr2c).1,
      (lineOut_id_full _ a12 a13 a14 a15 h12 h13 h14 h15 hr3a hr3b hr3c).1]
    rfl
  case Right =>
    rw [shift_eval_right,
      (lineOut_id_full _ a0 a1 a2 a3 h0 h1 h2 h3 hr0a hr0b hr0c).1,
      (lineOut_id_full _ a4 a5 a6 a7 h4 h5 h6 h7 hr1a hr1b hr1c).1,
      (lineOut_id_full _ a8 a9 a10 a11 h8 h9 h10 h11 hr2a hr2b hr2c).1,
      (lineOut_id_full _ a12 a13 a14 a15 h12 h13 h14 h15 hr3a hr3b hr3c).1]
    rfl
  case Up =>
    rw [shift_eval_up,
      (lineOut_id_full _ a0 a4 a8 a12 h0 h4 h8 h12 hc0a hc0b hc0c).1,
      (lineOut_id_full _ a1 a5 a9 a13 h1 h5 h9 h13 hc1a hc1b hc1c).1,
      (lineOut_id_full _ a2 a6 a10 a14 h2 h6 h10 h14 hc2a hc2b hc2c).1,
      (lineOut_id_full _ a3 a7 a11 a15 h3 h7 h11 h15 hc3a hc3b hc3c).1]
    rfl
  case Down =>
    rw [shift_eval_down,
      (lineOut_id_full _ a0 a4 a8 a12 h0 h4 h8 h12 hc0a hc0b hc0c).1,
      (lineOut_id_full _ a1 a5 a9 a13 h1 h5 h9 h13 hc1a hc1b hc1c).1,
      (lineOut_id_full _ a2 a6 a10 a14 h2 h6 h10 h14 hc2a hc2b hc2c).1,
      (lineOut_id_full _ a3 a7 a11 a15 h3 h7 h11 h15 hc3a hc3b hc3c).1]
    rfl

/-- C4: if `game_over` returns `true` then every direction's `shift` leaves
the cells unchanged, `available_moves` is empty, and `make_move` returns
`false` for every direction and every RNG draw. -/
theorem C4_game_over_stuck (g : Game) (hlen : g.state.length = 16)
    (hgo : game_over g = true) :
    (∀ m, (shift g m).state = g.state) ∧ available_moves g = [] ∧
    (∀ (m : Move) (pLow : Bool) (c_idx : Nat), (make_move pLow c_idx g m).fst = false) := by
  obtain ⟨s, sc, nm⟩ := g
  obtain ⟨a0, a1, a2, a3, a4, a5, a6, a7, a8, a9, a10, a11, a12, a13, a14, a15, rfl⟩ :=
    exists16 s hlen
  have hfix := shift_fixed_of_game_over a0 a1 a2 a3 a4 a5 a6 a7 a8 a9 a10 a11 a12 a13 a14 a15
    sc nm hgo
  refine ⟨hfix, ?_, ?_⟩
  · simp [available_moves, Move.iterOrder, hfix Move.Up, hfix Move.Down, hfix Move.Left,
      hfix Move.Right]
  · intro m pl ci
    simp [make_move, hfix m]

theorem C8_core (a0 a1 a2 a3 a4 a5 a6 a7 a8 a9 a10 a11 a12 a13 a14 a15 sc nm : Nat)
    (m : Move) :
    ([a0, a1, a2, a3, a4, a5, a6, a7, a8, a9, a10, a11, a12, a13, a14, a15] :
        List Nat).count 0 ≤
      (shift ⟨[a0, a1, a2, a3, a4, a5, a6, a7, a8, a9, a10, a11, a12, a13, a14, a15], sc, nm⟩
        m).state.count 0 := by
  have e : ([a0, a1, a2, a3, a4, a5, a6, a7, a8, a9, a10, a11, a12, a13, a14, a15] :
      List Nat)
      = [a0, a1, a2, a3] ++ ([a4, a5, a6, a7] ++ ([a8, a9, a10, a11] ++
        [a12, a13, a14, a15])) := rfl
  cases m
  case Left =>
    rw [shift_eval_left]
    have g1 := lineOut_count_ge Move.Left a0 a1 a2 a3
    have g2 := lineOut_count_ge Move.Left a4 a5 a6 a7
    have g3 := lineOut_count_ge Move.Left a8 a9 a10 a11
    have g4 := lineOut_count_ge Move.Left a12 a13 a14 a15
    rw [e]
    simp only [List.count_append]
    omega
  case Right =>
    rw [shift_eval_right]
    have g1 := lineOut_count_ge Move.Right a0 a1 a2 a3
    have g2 := lineOut_count_ge Move.Right a4 a5 a6 a7
    have g3 := lineOut_count_ge Move.Right a8 a9 a10 a11
    have g4 := lineOut_count_ge Move.Right a12 a13 a14 a15
    rw [e]
    simp only [List.count_append]
    omega
  case Up =>
    rw [shift_eval_up]
    obtain ⟨p0, p1, p2, p3, hM1⟩ := exists4 (lineOut Move.Up [a0, a4, a8, a12]) (lineOut_length Move.Up [a0, a4, a8, a12])
    obtain ⟨q0, q1, q2, q3, hM2⟩ := exists4 (lineOut Move.Up [a1, a5, a9, a13]) (lineOut_length Move.Up [a1, a5, a9, a13])
    obtain ⟨r0, r1, r2, r3, hM3⟩ := exists4 (lineOut Move.Up [a2, a6, a10, a14]) (lineOut_length Move.Up [a2, a6, a10, a14])
    obtain ⟨t0, t1, t2, t3, hM4⟩ := exists4 (lineOut Move.Up [a3, a7, a11, a15]) (lineOut_length Move.Up [a3, a7, a11, a15])
    have g1 := lineOut_count_ge Move.Up a0 a4 a8 a12
    have g2 := lineOut_count_ge Move.Up a1 a5 a9 a13
    have g3 := lineOut_count_ge Move.Up a2 a6 a10 a14
    have g4 := lineOut_count_ge Move.Up a3 a7 a11 a15
    rw [hM1] at g1
    rw [hM2] at g2
    rw [hM3] at g3
    rw [hM4] at g4
    rw [hM1, hM2, hM3, hM4]
    have e2 : ([p0, p1, p2, p3] : List Nat) ++ ([q0, q1, q2, q3] ++ ([r0, r1, r2, r3] ++
        [t0, t1, t2, t3]))
        = [p0, p1, p2, p3, q0, q1, q2, q3, r0, r1, r2, r3, t0, t1, t2, t3] := rfl
    rw [e2, count_transpose16, ← e2]
    have e3 : ([a0, a4, a8, a12] : List Nat).count 0 + ([a1, a5, a9, a13] : List Nat).count 0
        + ([a2, a6, a10, a14] : List Nat).count 0 + ([a3, a7, a11, a15] : List Nat).count 0
        = ([a0, a1, a2, a3, a4, a5, a6, a7, a8, a9, a10, a11, a12, a13, a14, a15] :
            List Nat).count 0 := by
      simp [List.count_cons]
      ring
    simp only [List.count_append]
    omega
  case Down =>
    rw [shift_eval_down]
    obtain ⟨p0, p1, p2, p3, hM1⟩ := exists4 (lineOut Move.Down [a0, a4, a8, a12]) (lineOut_length Move.Down [a0, a4, a8, a12])
    obtain ⟨q0, q1, q2, q3, hM2⟩ := exists4 (lineOut Move.Down [a1, a5, a9, a13]) (lineOut_length Move.Down [a1, a5, a9, a13])
    obtain ⟨r0, r1, r2, r3, hM3⟩ := exists4 (lineOut Move.Down [a2, a6, a10, a14]) (lineOut_length Move.Down [a2, a6, a10, a14])
    obtain ⟨t0, t1, t2, t3, hM4⟩ := exists4 (lineOut Move.Down [a3, a7, a11, a15]) (lineOut_length Move.Down [a3, a7, a11, a15])
    have g1 := lineOut_count_ge Move.Down a0 a4 a8 a12
    have g2 := lineOut_count_ge Move.Down a1 a5 a9 a13
    have g3 := lineOut_count_ge Move.Down a2 a6 a10 a14
    have g4 := lineOut_count_ge Move.Down a3 a7 a11 a15
    rw [hM1] at g1
    rw [hM2] at g2
    rw [hM3] at g3
    rw [hM4] at g4
    rw [hM1, hM2, hM3, hM4]
    have e2 : ([p0, p1, p2, p3] : List Nat) ++ ([q0, q1, q2, q3] ++ ([r0, r1, r2, r3] ++
        [t0, t1, t2, t3]))
        = [p0, p1, p2, p3, q0, q1, q2, q3, r0, r1, r2, r3, t0, t1, t2, t3] := rfl
    rw [e2, count_transpose16, ← e2]
    have e3 : ([a0, a4, a8, a12] : List Nat).count 0 + ([a1, a5, a9, a13] : List Nat).count 0
        + ([a2, a6, a10, a14] : List Nat).count 0 + ([a3, a7, a11, a15] : List Nat).count 0
        = ([a0, a1, a2, a3, a4, a5, a6, a7, a8, a9, a10, a11, a12, a13, a14, a15] :
            List Nat).count 0 := by
      simp [List.count_cons]
      ring
    simp only [List.count_append]
    omega

/-- C8: `shift` leaves `num_moves` unchanged and never spawns a tile: the
number of empty (zero) cells after the shift is at least the number before. -/
theorem C8_shift_frame (g : Game) (hlen : g.state.length = 16) (m : Move) :
    (shift g m).num_moves = g.num_moves ∧
    g.state.count 0 ≤ (shift g m).state.count 0 := by
  constructor
  · cases m <;> rfl
  · obtain ⟨s, sc, nm⟩ := g
    obtain ⟨a0, a1, a2, a3, a4, a5, a6, a7, a8, a9, a10, a11, a12, a13, a14, a15, rfl⟩ :=
      exists16 s hlen
    exact C8_core a0 a1 a2 a3 a4 a5 a6 a7 a8 a9 a10 a11 a12 a13 a14 a15 sc nm m

theorem shift_eq_of_state_eq
    (a0 a1 a2 a3 a4 a5 a6 a7 a8 a9 a10 a11 a12 a13 a14 a15 sc nm : Nat) (m : Move)
    (h : (shift ⟨[a0, a1, a2, a3, a4, a5, a6, a7, a8, a9, a10, a11, a12, a13, a14, a15],
        sc, nm⟩ m).state
      = [a0, a1, a2, a3, a4, a5, a6, a7, a8, a9, a10, a11, a12, a13, a14, a15]) :
    shift ⟨[a0, a1, a2, a3, a4, a5, a6, a7, a8, a9, a10, a11, a12, a13, a14, a15], sc, nm⟩ m
      = ⟨[a0, a1, a2, a3, a4, a5, a6, a7, a8, a9, a10, a11, a12, a13, a14, a15], sc, nm⟩ := by
  cases m
  case Left =>
    rw [shift_eval_left] at h ⊢
    obtain ⟨p0, p1, p2, p3, hM1⟩ := exists4 (lineOut Move.Left [a0, a1, a2, a3])
      (lineOut_length Move.Left [a0, a1, a2, a3])
    obtain ⟨q0, q1, q2, q3, hM2⟩ := exists4 (lineOut Move.Left [a4, a5, a6, a7])
      (lineOut_length Move.Left [a4, a5, a6, a7])
    obtain ⟨r0, r1, r2, r3, hM3⟩ := exists4 (lineOut Move.Left [a8, a9, a10, a11])
      (lineOut_length Move.Left [a8, a9, a10, a11])
    obtain ⟨t0, t1, t2, t3, hM4⟩ := exists4 (lineOut Move.Left [a12, a13, a14, a15])
      (lineOut_length Move.Left [a12, a13, a14, a15])
    rw [hM1, hM2, hM3, hM4] at h
    simp only [List.cons_append, List.nil_append, List.cons.injEq] at h
    obtain ⟨e0, e1, e2, e3, e4, e5, e6, e7, e8, e9, e10, e11, e12, e13, e14, e15, -⟩ := h
    rw [e0, e1, e2, e3] at hM1
    rw [e4, e5, e6, e7] at hM2
    rw [e8, e9, e10, e11] at hM3
    rw [e12, e13, e14, e15] at hM4
    rw [lineGain_zero_of_fixed Move.Left a0 a1 a2 a3 hM1,
      lineGain_zero_of_fixed Move.Left a4 a5 a6 a7 hM2,
      lineGain_zero_of_fixed Move.Left a8 a9 a10 a11 hM3,
      lineGain_zero_of_fixed Move.Left a12 a13 a14 a15 hM4, hM1, hM2, hM3, hM4]
    rfl
  case Right =>
    rw [shift_eval_right] at h ⊢
    obtain ⟨p0, p1, p2, p3, hM1⟩ := exists4 (lineOut Move.Right [a0, a1, a2, a3])
      (lineOut_length Move.Right [a0, a1, a2, a3])
    obtain ⟨q0, q1, q2, q3, hM2⟩ := exists4 (lineOut Move.Right [a4, a5, a6, a7])
      (lineOut_length Move.Right [a4, a5, a6, a7])
    obtain ⟨r0, r1, r2, r3, hM3⟩ := exists4 (lineOut Move.Right [a8, a9, a10, a11])
      (lineOut_length Move.Right [a8, a9, a10, a11])
    obtain ⟨t0, t1, t2, t3, hM4⟩ := exists4 (lineOut Move.Right [a12, a13, a14, a15])
      (lineOut_length Move.Right [a12, a13, a14, a15])
    rw [hM1, hM2, hM3, hM4] at h
    simp only [List.cons_append, List.nil_append, List.cons.injEq] at h
    obtain ⟨e0, e1, e2, e3, e4, e5, e6, e7, e8, e9, e10, e11, e12, e13, e14, e15, -⟩ := h
    rw [e0, e1, e2, e3] at hM1
    rw [e4, e5, e6, e7] at hM2
    rw [e8, e9, e10, e11] at hM3
    rw [e12, e13, e14, e15] at hM4
    rw [lineGain_zero_of_fixed Move.Right a0 a1 a2 a3 hM1,
      lineGain_zero_of_fixed Move.Right a4 a5 a6 a7 hM2,
      lineGain_zero_of_fixed Move.Right a8 a9 a10 a11 hM3,
      lineGain_zero_of_fixed Move.Right a12 a13 a14 a15 hM4, hM1, hM2, hM3, hM4]
    rfl
  case Up =>
    rw [shift_eval_up] at h ⊢
    obtain ⟨p0, p1, p2, p3, hM1⟩ := exists4 (lineOut Move.Up [a0, a4, a8, a12])
      (lineOut_length Move.Up [a0, a4, a8, a12])
    obtain ⟨q0, q1, q2, q3, hM2⟩ := exists4 (lineOut Move.Up [a1, a5, a9, a13])
      (lineOut_length Move.Up [a1, a5, a9, a13])
    obtain ⟨r0, r1, r2, r3, hM3⟩ := exists4 (lineOut Move.Up [a2, a6, a10, a14])
      (lineOut_length Move.Up [a2, a6, a10, a14])
    obtain ⟨t0, t1, t2, t3, hM4⟩ := exists4 (lineOut Move.Up [a3, a7, a11, a15])
      (lineOut_length Move.Up [a3, a7, a11, a15])
    rw [hM1, hM2, hM3, hM4] at h
    simp only [List.cons_append, List.nil_append] at h
    simp only [transpose16, List.getD_cons_zero, List.getD_cons_succ, List.cons.injEq] at h
    obtain ⟨e0, e1, e2, e3, e4, e5, e6, e7, e8, e9, e10, e11, e12, e13, e14, e15, -⟩ := h
    rw [e0, e4, e8, e12] at hM1
    rw [e1, e5, e9, e13] at hM2
    rw [e2, e6, e10, e14] at hM3
    rw [e3, e7, e11, e15] at hM4
    rw [lineGain_zero_of_fixed Move.Up a0 a4 a8 a12 hM1,
      lineGain_zero_of_fixed Move.Up a1 a5 a9 a13 hM2,
      lineGain_zero_of_fixed Move.Up a2 a6 a10 a14 hM3,
      lineGain_zero_of_fixed Move.Up a3 a7 a11 a15 hM4, hM1, hM2, hM3, hM4]
    rfl
  case Down =>
    rw [shift_eval_down] at h ⊢
    obtain ⟨p0, p1, p2, p3, hM1⟩ := exists4 (lineOut Move.Down [a0, a4, a8, a12])
      (lineOut_length Move.Down [a0, a4, a8, a12])
    obtain ⟨q0, q1, q2, q3, hM2⟩ := exists4 (lineOut Move.Down [a1, a5, a9, a13])
      (lineOut_length Move.Down [a1, a5, a9, a13])
    obtain ⟨r0, r1, r2, r3, hM3⟩ := exists4 (lineOut Move.Down [a2, a6, a10, a14])
      (lineOut_length Move.Down [a2, a6, a10, a14])
    obtain ⟨t0, t1, t2, t3, hM4⟩ := exists4 (lineOut Move.Down [a3, a7, a11, a15])
      (lineOut_length Move.Down [a3, a7, a11, a15])
    rw [hM1, hM2, hM3, hM4] at h
    simp only [List.cons_append, List.nil_append] at h
    simp only [transpose16, List.getD_cons_zero, List.getD_cons_succ, List.cons.injEq] at h
    obtain ⟨e0, e1, e2, e3, e4, e5, e6, e7, e8, e9, e10, e11, e12, e13, e14, e15, -⟩ := h
    rw [e0, e4, e8, e12] at hM1
    rw [e1, e5, e9, e13] at hM2
    rw [e2, e6, e10, e14] at hM3
    rw [e3, e7, e11, e15] at hM4
    rw [lineGain_zero_of_fixed Move.Down a0 a4 a8 a12 hM1,
      lineGain_zero_of_fixed Move.Down a1 a5 a9 a13 hM2,
      lineGain_zero_of_fixed Move.Down a2 a6 a10 a14 hM3,
      lineGain_zero_of_fixed Move.Down a3 a7 a11 a15 hM4, hM1, hM2, hM3, hM4]
    rfl

/-- C3: `make_move` returns `false` exactly when the `shift` it performs
leaves the cells unchanged (this is literally the pre/post comparison the code
makes), and whenever it returns `false` the resulting game is the original
one: same cells, same `score` (the shift gained nothing), same `num_moves`,
and no tile was spawned. -/
theorem C3_make_move_noop (g : Game) (hlen : g.state.length = 16) (m : Move)
    (pLow : Bool) (c_idx : Nat) :
    ((make_move pLow c_idx g m).fst = false ↔ (shift g m).state = g.state) ∧
    ((make_move pLow c_idx g m).fst = false → (make_move pLow c_idx g m).snd = g) := by
  by_cases h : g.state = (shift g m).state
  · have hfull : shift g m = g := by
      obtain ⟨s, sc, nm⟩ := g
      obtain ⟨a0, a1, a2, a3, a4, a5, a6, a7, a8, a9, a10, a11, a12, a13, a14, a15, rfl⟩ :=
        exists16 s hlen
      exact shift_eq_of_state_eq a0 a1 a2 a3 a4 a5 a6 a7 a8 a9 a10 a11 a12 a13 a14 a15
        _ _ m h.symm
    constructor
    · simp [make_move, h, hfull]
    · intro hf
      simp [make_move, h, hfull]
  · constructor
    · simp [make_move, h]
      exact fun hh => h hh.symm
    · intro hf
      simp [make_move, h] at hf

theorem C2_core_left (a0 a1 a2 a3 a4 a5 a6 a7 a8 a9 a10 a11 a12 a13 a14 a15 sc nm : Nat)
    (hbound : ∀ x ∈ ([a0, a1, a2, a3, a4, a5, a6, a7, a8, a9, a10, a11, a12, a13, a14, a15] :
      List Nat), x ≤ 254)
    (hstable : ∀ v ∈ linesOf Move.Left (shift ⟨[a0, a1, a2, a3, a4, a5, a6, a7, a8, a9, a10,
      a11, a12, a13, a14, a15], sc, nm⟩ Move.Left), noMergeablePair v = true) :
    (shift (shift ⟨[a0, a1, a2, a3, a4, a5, a6, a7, a8, a9, a10, a11, a12, a13, a14, a15],
        sc, nm⟩ Move.Left) Move.Left).state
      = (shift ⟨[a0, a1, a2, a3, a4, a5, a6, a7, a8, a9, a10, a11, a12, a13, a14, a15],
        sc, nm⟩ Move.Left).state := by
  simp only [List.mem_cons, forall_eq_or_imp] at hbound
  obtain ⟨b0, b1, b2, b3, b4, b5, b6, b7, b8, b9, b10, b11, b12, b13, b14, b15, -⟩ := hbound
  obtain ⟨p0, p1, p2, p3, hM1⟩ := exists4 (lineOut Move.Left [a0, a1, a2, a3])
    (lineOut_length Move.Left [a0, a1, a2, a3])
  obtain ⟨q0, q1, q2, q3, hM2⟩ := exists4 (lineOut Move.Left [a4, a5, a6, a7])
    (lineOut_length Move.Left [a4, a5, a6, a7])
  obtain ⟨r0, r1, r2, r3, hM3⟩ := exists4 (lineOut Move.Left [a8, a9, a10, a11])
    (lineOut_length Move.Left [a8, a9, a10, a11])
  obtain ⟨t0, t1, t2, t3, hM4⟩ := exists4 (lineOut Move.Left [a12, a13, a14, a15])
    (lineOut_length Move.Left [a12, a13, a14, a15])
  simp only [linesOf, shift_eval_left, hM1, hM2, hM3, hM4, List.cons_append,
    List.nil_append, get_rows, List.getD_cons_zero, List.getD_cons_succ,
    List.mem_cons, forall_eq_or_imp] at hstable
  obtain ⟨hs1, hs2, hs3, hs4, -⟩ := hstable
  rw [← hM1] at hs1
  rw [← hM2] at hs2
  rw [← hM3] at hs3
  rw [← hM4] at hs4
  have hline1 := (line_stable Move.Left a0 a1 a2 a3 ⟨b0, b1, b2, b3⟩ hs1).1
  have hline2 := (line_stable Move.Left a4 a5 a6 a7 ⟨b4, b5, b6, b7⟩ hs2).1
  have hline3 := (line_stable Move.Left a8 a9 a10 a11 ⟨b8, b9, b10, b11⟩ hs3).1
  have hline4 := (line_stable Move.Left a12 a13 a14 a15 ⟨b12, b13, b14, b15⟩ hs4).1
  rw [hM1] at hline1
  rw [hM2] at hline2
  rw [hM3] at hline3
  rw [hM4] at hline4
  rw [shift_eval_left, hM1, hM2, hM3, hM4]
  simp only [List.cons_append, List.nil_append]
  rw [shift_eval_left, hline1, hline2, hline3, hline4]
  rfl

theorem C2_core_right (a0 a1 a2 a3 a4 a5 a6 a7 a8 a9 a10 a11 a12 a13 a14 a15 sc nm : Nat)
    (hbound : ∀ x ∈ ([a0, a1, a2, a3, a4, a5, a6, a7, a8, a9, a10, a11, a12, a13, a14, a15] :
      List Nat), x ≤ 254)
    (hstable : ∀ v ∈ linesOf Move.Right (shift ⟨[a0, a1, a2, a3, a4, a5, a6, a7, a8, a9, a10,
      a11, a12, a13, a14, a15], sc, nm⟩ Move.Right), noMergeablePair v = true) :
    (shift (shift ⟨[a0, a1, a2, a3, a4, a5, a6, a7, a8, a9, a10, a11, a12, a13, a14, a15],
        sc, nm⟩ Move.Right) Move.Right).state
      = (shift ⟨[a0, a1, a2, a3, a4, a5, a6, a7, a8, a9, a10, a11, a12, a13, a14, a15],
        sc, nm⟩ Move.Right).state := by
  simp only [List.mem_cons, forall_eq_or_imp] at hbound
  obtain ⟨b0, b1, b2, b3, b4, b5, b6, b7, b8, b9, b10, b11, b12, b13, b14, b15, -⟩ := hbound
  obtain ⟨p0, p1, p2, p3, hM1⟩ := exists4 (lineOut Move.Right [a0, a1, a2, a3])
    (lineOut_length Move.Right [a0, a1, a2, a3])
  obtain ⟨q0, q1, q2, q3, hM2⟩ := exists4 (lineOut Move.Right [a4, a5, a6, a7])
    (lineOut_length Move.Right [a4, a5, a6, a7])
  obtain ⟨r0, r1, r2, r3, hM3⟩ := exists4 (lineOut Move.Right [a8, a9, a10, a11])
    (lineOut_length Move.Right [a8, a9, a10, a11])
  obtain ⟨t0, t1, t2, t3, hM4⟩ := exists4 (lineOut Move.Right [a12, a13, a14, a15])
    (lineOut_length Move.Right [a12, a13, a14, a15])
  simp only [linesOf, shift_eval_right, hM1, hM2, hM3, hM4, List.cons_append,
    List.nil_append, get_rows, List.getD_cons_zero, List.getD_cons_succ,
    List.mem_cons, forall_eq_or_imp] at hstable
  obtain ⟨hs1, hs2, hs3, hs4, -⟩ := hstable
  rw [← hM1] at hs1
  rw [← hM2] at hs2
  rw [← hM3] at hs3
  rw [← hM4] at hs4
  have hline1 := (line_stable Move.Right a0 a1 a2 a3 ⟨b0, b1, b2, b3⟩ hs1).1
  have hline2 := (line_stable Move.Right a4 a5 a6 a7 ⟨b4, b5, b6, b7⟩ hs2).1
  have hline3 := (line_stable Move.Right a8 a9 a10 a11 ⟨b8, b9, b10, b11⟩ hs3).1
  have hline4 := (line_stable Move.Right a12 a13 a14 a15 ⟨b12, b13, b14, b15⟩ hs4).1
  rw [hM1] at hline1
  rw [hM2] at hline2
  rw [hM3] at hline3
  rw [hM4] at hline4
  rw [shift_eval_right, hM1, hM2, hM3, hM4]
  simp only [List.cons_append, List.nil_append]
  rw [shift_eval_right, hline1, hline2, hline3, hline4]
  rfl

theorem C2_core_up (a0 a1 a2 a3 a4 a5 a6 a7 a8 a9 a10 a11 a12 a13 a14 a15 sc nm : Nat)
    (hbound : ∀ x ∈ ([a0, a1, a2, a3, a4, a5, a6, a7, a8, a9, a10, a11, a12, a13, a14, a15] :
      List Nat), x ≤ 254)
    (hstable : ∀ v ∈ linesOf Move.Up (shift ⟨[a0, a1, a2, a3, a4, a5, a6, a7, a8, a9, a10,
      a11, a12, a13, a14, a15], sc, nm⟩ Move.Up), noMergeablePair v = true) :
    (shift (shift ⟨[a0, a1, a2, a3, a4, a5, a6, a7, a8, a9, a10, a11, a12, a13, a14, a15],
        sc, nm⟩ Move.Up) Move.Up).state
      = (shift ⟨[a0, a1, a2, a3, a4, a5, a6, a7, a8, a9, a10, a11, a12, a13, a14, a15],
        sc, nm⟩ Move.Up).state := by
  simp only [List.mem_cons, forall_eq_or_imp] at hbound
  obtain ⟨b0, b1, b2, b3, b4, b5, b6, b7, b8, b9, b10, b11, b12, b13, b14, b15, -⟩ := hbound
  obtain ⟨p0, p1, p2, p3, hM1⟩ := exists4 (lineOut Move.Up [a0, a4, a8, a12])
    (lineOut_length Move.Up [a0, a4, a8, a12])
  obtain ⟨q0, q1, q2, q3, hM2⟩ := exists4 (lineOut Move.Up [a1, a5, a9, a13])
    (lineOut_length Move.Up [a1, a5, a9, a13])
  obtain ⟨r0, r1, r2, r3, hM3⟩ := exists4 (lineOut Move.Up [a2, a6, a10, a14])
    (lineOut_length Move.Up [a2, a6, a10, a14])
  obtain ⟨t0, t1, t2, t3, hM4⟩ := exists4 (lineOut Move.Up [a3, a7, a11, a15])
    (lineOut_length Move.Up [a3, a7, a11, a15])
  simp only [linesOf, shift_eval_up, hM1, hM2, hM3, hM4, List.cons_append,
    List.nil_append, transpose16, List.getD_cons_zero, List.getD_cons_succ, get_cols,
    List.mem_cons, forall_eq_or_imp] at hstable
  obtain ⟨hs1, hs2, hs3, hs4, -⟩ := hstable
  rw [← hM1] at hs1
  rw [← hM2] at hs2
  rw [← hM3] at hs3
  rw [← hM4] at hs4
  have hline1 := (line_stable Move.Up a0 a4 a8 a12 ⟨b0, b4, b8, b12⟩ hs1).1
  have hline2 := (line_stable Move.Up a1 a5 a9 a13 ⟨b1, b5, b9, b13⟩ hs2).1
  have hline3 := (line_stable Move.Up a2 a6 a10 a14 ⟨b2, b6, b10, b14⟩ hs3).1
  have hline4 := (line_stable Move.Up a3 a7 a11 a15 ⟨b3, b7, b11, b15⟩ hs4).1
  rw [hM1] at hline1
  rw [hM2] at hline2
  rw [hM3] at hline3
  rw [hM4] at hline4
  rw [shift_eval_up, hM1, hM2, hM3, hM4]
  simp only [List.cons_append, List.nil_append, transpose16, List.getD_cons_zero,
    List.getD_cons_succ]
  rw [shift_eval_up, hline1, hline2, hline3, hline4]
  simp only [List.cons_append, List.nil_append, transpose16, List.getD_cons_zero,
    List.getD_cons_succ]

theorem C2_core_down (a0 a1 a2 a3 a4 a5 a6 a7 a8 a9 a10 a11 a12 a13 a14 a15 sc nm : Nat)
    (hbound : ∀ x ∈ ([a0, a1, a2, a3, a4, a5, a6, a7, a8, a9, a10, a11, a12, a13, a14, a15] :
      List Nat), x ≤ 254)
    (hstable : ∀ v ∈ linesOf Move.Down (shift ⟨[a0, a1, a2, a3, a4, a5, a6, a7, a8, a9, a10,
      a11, a12, a13, a14, a15], sc, nm⟩ Move.Down), noMergeablePair v = true) :
    (shift (shift ⟨[a0, a1, a2, a3, a4, a5, a6, a7, a8, a9, a10, a11, a12, a13, a14, a15],
        sc, nm⟩ Move.Down) Move.Down).state
      = (shift ⟨[a0, a1, a2, a3, a4, a5, a6, a7, a8, a9, a10, a11, a12, a13, a14, a15],
        sc, nm⟩ Move.Down).state := by
  simp only [List.mem_cons, forall_eq_or_imp] at hbound
  obtain ⟨b0, b1, b2, b3, b4, b5, b6, b7, b8, b9, b10, b11, b12, b13, b14, b15, -⟩ := hbound
  obtain ⟨p0, p1, p2, p3, hM1⟩ := exists4 (lineOut Move.Down [a0, a4, a8, a12])
    (lineOut_length Move.Down [a0, a4, a8, a12])
  obtain ⟨q0, q1, q2, q3, hM2⟩ := exists4 (lineOut Move.Down [a1, a5, a9, a13])
    (lineOut_length Move.Down [a1, a5, a9, a13])
  obtain ⟨r0, r1, r2, r3, hM3⟩ := exists4 (lineOut Move.Down [a2, a6, a10, a14])
    (lineOut_length Move.Down [a2, a6, a10, a14])
  obtain ⟨t0, t1, t2, t3, hM4⟩ := exists4 (lineOut Move.Down [a3, a7, a11, a15])
    (lineOut_length Move.Down [a3, a7, a11, a15])
  simp only [linesOf, shift_eval_down, hM1, hM2, hM3, hM4, List.cons_append,
    List.nil_append, transpose16, List.getD_cons_zero, List.getD_cons_succ, get_cols,
    List.mem_cons, forall_eq_or_imp] at hstable
  obtain ⟨hs1, hs2, hs3, hs4, -⟩ := hstable
  rw [← hM1] at hs1
  rw [← hM2] at hs2
  rw [← hM3] at hs3
  rw [← hM4] at hs4
  have hline1 := (line_stable Move.Down a0 a4 a8 a12 ⟨b0, b4, b8, b12⟩ hs1).1
  have hline2 := (line_stable Move.Down a1 a5 a9 a13 ⟨b1, b5, b9, b13⟩ hs2).1
  have hline3 := (line_stable Move.Down a2 a6 a10 a14 ⟨b2, b6, b10, b14⟩ hs3).1
  have hline4 := (line_stable Move.Down a3 a7 a11 a15 ⟨b3, b7, b11, b15⟩ hs4).1
  rw [hM1] at hline1
  rw [hM2] at hline2
  rw [hM3] at hline3
  rw [hM4] at hline4
  rw [shift_eval_down, hM1, hM2, hM3, hM4]
  simp only [List.cons_append, List.nil_append, transpose16, List.getD_cons_zero,
    List.getD_cons_succ]
  rw [shift_eval_down, hline1, hline2, hline3, hline4]
  simp only [List.cons_append, List.nil_append, transpose16, List.getD_cons_zero,
    List.getD_cons_succ]

/-- C2 (amended): applying `shift` twice with the same move changes nothing
beyond the first application, **provided** no cell of the board is at the `u8`
maximum 255 (so no merge wraps to 0) and the shifted board has no two adjacent
equal nonzero cells along the move's axis (so the second pass has nothing left
to merge).  Unconditional idempotence, as the claim states it, is refuted by
`C2_counterexample`: a single-pass merge can enable a further merge. -/
theorem C2_shift_stable (g : Game) (hlen : g.state.length = 16) (m : Move)
    (hbound : ∀ x ∈ g.state, x ≤ 254)
    (hstable : ∀ v ∈ linesOf m (shift g m), noMergeablePair v = true) :
    (shift (shift g m) m).state = (shift g m).state := by
  obtain ⟨s, sc, nm⟩ := g
  obtain ⟨a0, a1, a2, a3, a4, a5, a6, a7, a8, a9, a10, a11, a12, a13, a14, a15, rfl⟩ :=
    exists16 s hlen
  cases m
  case Up =>
    exact C2_core_up a0 a1 a2 a3 a4 a5 a6 a7 a8 a9 a10 a11 a12 a13 a14 a15 sc nm
      hbound hstable
  case Down =>
    exact C2_core_down a0 a1 a2 a3 a4 a5 a6 a7 a8 a9 a10 a11 a12 a13 a14 a15 sc nm
      hbound hstable
  case Left =>
    exact C2_core_left a0 a1 a2 a3 a4 a5 a6 a7 a8 a9 a10 a11 a12 a13 a14 a15 sc nm
      hbound hstable
  case Right =>
    exact C2_core_right a0 a1 a2 a3 a4 a5 a6 a7 a8 a9 a10 a11 a12 a13 a14 a15 sc nm
      hbound hstable

/-- C1 (amended): `max_move` always returns a direction attaining the maximum
score, and among tied maxima it returns the **latest**-declared direction in
{Up, Down, Left, Right} (everything declared after the result scores strictly
less).  Rust's `Iterator::max_by_key` keeps the last maximal element, so the
first-declared-wins tie-break stated by the claim is refuted by
`C1_counterexample`; determinism across repeated calls holds trivially since
`max_move` is a pure function of the mapping. -/
theorem C1_amended_max_move (s : MoveScores) :
    (∀ m, s m ≤ s (max_move s)) ∧
    (∀ m, moveIdx (max_move s) < moveIdx m → s m < s (max_move s)) := by
  constructor <;>
  · intro m
    cases m <;>
      simp only [max_move, Move.iterOrder, List.foldl, ite_self] <;>
      split_ifs <;> simp_all [moveIdx] <;> omega

/-- C5: the shift/merge pass is a single left-to-right pass with no
cascading: the board whose only occupied row is `[1,1,2,2]` shifted Left
yields row `[2,3,0,0]` adding exactly `2^2 + 2^3 = 12` to the score, shifted
Right yields `[0,0,2,3]` with the same score delta, and row `[1,2,2,2]`
shifted Left yields `[1,3,2,0]` (only the middle pair merges). -/
theorem C5_merge_vectors (sc nm : Nat) :
    (shift ⟨[1, 1, 2, 2, 0, 0, 0, 0, 0, 0, 0, 0, 0, 0, 0, 0], sc, nm⟩ Move.Left).state
      = [2, 3, 0, 0, 0, 0, 0, 0, 0, 0, 0, 0, 0, 0, 0, 0] ∧
    (shift ⟨[1, 1, 2, 2, 0, 0, 0, 0, 0, 0, 0, 0, 0, 0, 0, 0], sc, nm⟩ Move.Left).score
      = sc + 12 ∧
    (shift ⟨[1, 1, 2, 2, 0, 0, 0, 0, 0, 0, 0, 0, 0, 0, 0, 0], sc, nm⟩ Move.Right).state
      = [0, 0, 2, 3, 0, 0, 0, 0, 0, 0, 0, 0, 0, 0, 0, 0] ∧
    (shift ⟨[1, 1, 2, 2, 0, 0, 0, 0, 0, 0, 0, 0, 0, 0, 0, 0], sc, nm⟩ Move.Right).score
      = sc + 12 ∧
    (shift ⟨[1, 2, 2, 2, 0, 0, 0, 0, 0, 0, 0, 0, 0, 0, 0, 0], sc, nm⟩ Move.Left).state
      = [1, 3, 2, 0, 0, 0, 0, 0, 0, 0, 0, 0, 0, 0, 0, 0] := by
  have e1 : lineGain [1, 1, 2, 2] = 12 := by decide
  have e2 : lineGain [0, 0, 0, 0] = 0 := by decide
  refine ⟨?_, ?_, ?_, ?_, ?_⟩
  · rw [shift_eval_left]
    rfl
  · rw [shift_eval_left]
    simp only [e1, e2]
  · rw [shift_eval_right]
    rfl
  · rw [shift_eval_right]
    simp only [e1, e2]
  · rw [shift_eval_left]
    rfl

/-- C7: the all-empty board is permanently stuck but never reported as game
over: `game_over` is `false`, every `shift` leaves the cells unchanged,
`available_moves` is empty, every `make_move` returns `false` and changes
nothing, and any number of iterations of the random-rollout loop leaves the
board all-empty with `game_over` still `false` — so a rollout conditioned on
`game_over` would never terminate on it. -/
theorem C7_empty_board_stuck :
    game_over Game.empty = false ∧
    (∀ m, (shift Game.empty m).state = Game.empty.state) ∧
    available_moves Game.empty = [] ∧
    (∀ (m : Move) (pLow : Bool) (c_idx : Nat),
      make_move pLow c_idx Game.empty m = (false, Game.empty)) ∧
    (∀ draws, run_random_moves draws Game.empty = Game.empty ∧
      game_over (run_random_moves draws Game.empty) = false) := by
  have hmm : ∀ (m : Move) (pl : Bool) (ci : Nat),
      make_move pl ci Game.empty m = (false, Game.empty) := by
    intro m pl ci
    cases m <;> rfl
  have hrun : ∀ draws, run_random_moves draws Game.empty = Game.empty := by
    intro draws
    induction draws with
    | nil => rfl
    | cons d ds ih =>
      rw [run_random_moves, List.foldl_cons, hmm d.1 d.2.1 d.2.2]
      exact ih
  refine ⟨by decide, ?_, by decide, hmm, ?_⟩
  · intro m
    cases m <;> decide
  · intro draws
    rw [hrun draws]
    exact ⟨rfl, by decide⟩

/-- C10: the score is monotonically non-decreasing: `shift` and `make_move`
never decrease it, and `generate_tile` leaves it unchanged. -/
theorem C10_score_monotone (g : Game) (m : Move) (pLow : Bool) (c_idx : Nat) :
    g.score ≤ (shift g m).score ∧
    g.score ≤ (make_move pLow c_idx g m).snd.score ∧
    (generate_tile pLow c_idx g).score = g.score := by
  have hgen : ∀ g', (generate_tile pLow c_idx g').score = g'.score := by
    intro g'
    simp only [generate_tile]
    split <;> rfl
  have hshift : ∀ (g' : Game) (m' : Move), g'.score ≤ (shift g' m').score := by
    intro g' m'
    cases m' <;> exact Nat.le_add_right _ _
  refine ⟨hshift g m, ?_, hgen g⟩
  by_cases h : g.state = (shift g m).state
  · simp only [make_move, if_pos h]
    exact hshift g m
  · simp only [make_move, if_neg h]
    have := hgen (shift g m)
    calc g.score ≤ (shift g m).score := hshift g m
      _ = (generate_tile pLow c_idx (shift g m)).score := (hgen _).symm
      _ = _ := rfl

/-- C6: the list of hypothetical boards averaged in `expectimax_recurse` is
never empty — whatever the (shuffled) empty-index list and the `num_tiles`
bound, its length is positive, so the division by its length is never a
division by zero — and when the board has no empty cell it is exactly the
singleton `[(board, 1)]`. -/
theorem C6_games_to_avg (g : Game) (shuffled : List Nat) (num_tiles : Nat)
    (hperm : shuffled.Perm (empty_indexes g)) :
    0 < (games_to_avg g shuffled num_tiles).length ∧
    (empty_indexes g = [] → games_to_avg g shuffled num_tiles = [(g, 1)]) := by
  constructor
  · by_cases h : (idx_to_tile shuffled num_tiles).length = 0
    · simp [games_to_avg, h]
    · simp [games_to_avg, h]
      omega
  · intro he
    rw [he] at hperm
    have hnil : shuffled = [] := hperm.eq_nil
    subst hnil
    simp [games_to_avg, idx_to_tile]

/-- C9: `generate_tile` leaves `score` and `num_moves` unchanged; with no
empty cell it is a no-op; otherwise (for any in-range random index) it changes
exactly one cell — a previously-zero cell drawn from the board's empty-index
list — to exponent 1 (`pLow`, probability 0.9 draw) or 2, so the cells do
change. -/
theorem C9_generate_tile (g : Game) (pLow : Bool) (c_idx : Nat) :
    (generate_tile pLow c_idx g).score = g.score ∧
    (generate_tile pLow c_idx g).num_moves = g.num_moves ∧
    (empty_indexes g = [] → generate_tile pLow c_idx g = g) ∧
    (c_idx < (empty_indexes g).length →
      ∃ k, k ∈ empty_indexes g ∧ k < g.state.length ∧ g.state.getD k 0 = 0 ∧
        (generate_tile pLow c_idx g).state = g.state.set k (if pLow then 1 else 2) ∧
        (generate_tile pLow c_idx g).state ≠ g.state) := by
  refine ⟨?_, ?_, ?_, ?_⟩
  · simp only [generate_tile]
    split <;> rfl
  · simp only [generate_tile]
    split <;> rfl
  · intro he
    simp [generate_tile, he]
  · intro hlt
    obtain ⟨k, hkdef⟩ : ∃ k, (empty_indexes g).getD c_idx 0 = k := ⟨_, rfl⟩
    have hmem : k ∈ empty_indexes g := by
      rw [← hkdef, List.getD_eq_getElem _ _ hlt]
      exact List.getElem_mem hlt
    have hprops : k < g.state.length ∧ g.state.getD k 0 = 0 := by
      have h2 := hmem
      simp only [empty_indexes, List.mem_filter, List.mem_range] at h2
      exact ⟨h2.1, by simpa using h2.2⟩
    have hne : ¬ (empty_indexes g).length = 0 := by omega
    have hstate : (generate_tile pLow c_idx g).state
        = g.state.set k (if pLow then 1 else 2) := by
      simp only [generate_tile, hne, if_false, if_neg hne, hkdef]
    refine ⟨k, hmem, hprops.1, hprops.2, hstate, ?_⟩
    have h1 : (g.state.set k (if pLow then 1 else 2)).getD k 0 = (if pLow then 1 else 2) := by
      rw [List.getD_eq_getElem _ _ (by simpa using hprops.1)]
      simp [List.getElem_set_self]
    intro heq
    rw [← hstate, heq] at h1
    rw [hprops.2] at h1
    cases pLow <;> simp at h1

/-- C1 counterexample: the constant-zero mapping has all four directions
(`Up` included) sharing the maximum, yet `max_move` returns `Right`, the
latest-declared direction — not the earliest-declared `Up` the claim
requires. -/
theorem C1_counterexample :
    max_move (fun _ => 0) = Move.Right ∧ Move.Right ≠ Move.Up := by decide

/-- C1 witness: on a mapping with a tie between Up and Down (both 5, above
Left 1 and Right 0), `max_move` attains the maximum and every later-declared
direction scores strictly less. -/
theorem C1_amended_max_move_witness :
    (fun m => if moveIdx m ≤ 1 then 5 else 0 : MoveScores) Move.Left
      ≤ (fun m => if moveIdx m ≤ 1 then 5 else 0 : MoveScores)
        (max_move (fun m => if moveIdx m ≤ 1 then 5 else 0)) ∧
    (fun m => if moveIdx m ≤ 1 then 5 else 0 : MoveScores) Move.Right
      < (fun m => if moveIdx m ≤ 1 then 5 else 0 : MoveScores)
        (max_move (fun m => if moveIdx m ≤ 1 then 5 else 0)) :=
  ⟨(C1_amended_max_move (fun m => if moveIdx m ≤ 1 then 5 else 0)).1 Move.Left,
   (C1_amended_max_move (fun m => if moveIdx m ≤ 1 then 5 else 0)).2 Move.Right (by decide)⟩

/-- C2 counterexample: the board whose only occupied row is `[1,1,1,1]`
shifted Left gives row `[2,2,0,0]`; shifting Left again merges further to
`[3,0,0,0]`, so `shift` is not idempotent. -/
theorem C2_counterexample :
    (shift (shift ⟨[1, 1, 1, 1, 0, 0, 0, 0, 0, 0, 0, 0, 0, 0, 0, 0], 0, 0⟩ Move.Left)
        Move.Left).state
      ≠ (shift ⟨[1, 1, 1, 1, 0, 0, 0, 0, 0, 0, 0, 0, 0, 0, 0, 0], 0, 0⟩ Move.Left).state := by
  decide

/-- C2 witness: a board whose Left-shift is already merge-free is unchanged by
a second Left-shift. -/
theorem C2_shift_stable_witness :
    (shift (shift ⟨[0, 1, 2, 1, 0, 0, 0, 0, 0, 0, 0, 0, 0, 0, 0, 0], 0, 0⟩ Move.Left)
        Move.Left).state
      = (shift ⟨[0, 1, 2, 1, 0, 0, 0, 0, 0, 0, 0, 0, 0, 0, 0, 0], 0, 0⟩ Move.Left).state :=
  C2_shift_stable ⟨[0, 1, 2, 1, 0, 0, 0, 0, 0, 0, 0, 0, 0, 0, 0, 0], 0, 0⟩ (by decide)
    Move.Left (by decide) (by decide)

/-- C3 witness: on a stuck checkerboard, `make_move` returns `false` and the
game (cells, score 5, move counter 7) is returned untouched. -/
theorem C3_make_move_noop_witness :
    (make_move true 0 ⟨[1, 2, 1, 2, 2, 1, 2, 1, 1, 2, 1, 2, 2, 1, 2, 1], 5, 7⟩ Move.Up).snd
      = ⟨[1, 2, 1, 2, 2, 1, 2, 1, 1, 2, 1, 2, 2, 1, 2, 1], 5, 7⟩ ∧
    ((make_move true 0 ⟨[1, 2, 1, 2, 2, 1, 2, 1, 1, 2, 1, 2, 2, 1, 2, 1], 5, 7⟩ Move.Up).fst
        = false ↔
      (shift ⟨[1, 2, 1, 2, 2, 1, 2, 1, 1, 2, 1, 2, 2, 1, 2, 1], 5, 7⟩ Move.Up).state
        = [1, 2, 1, 2, 2, 1, 2, 1, 1, 2, 1, 2, 2, 1, 2, 1]) :=
  ⟨(C3_make_move_noop ⟨[1, 2, 1, 2, 2, 1, 2, 1, 1, 2, 1, 2, 2, 1, 2, 1], 5, 7⟩ (by decide)
      Move.Up true 0).2 (by decide),
   (C3_make_move_noop ⟨[1, 2, 1, 2, 2, 1, 2, 1, 1, 2, 1, 2, 2, 1, 2, 1], 5, 7⟩ (by decide)
      Move.Up true 0).1⟩

/-- C4 witness: a checkerboard is game over; its Left shift changes nothing
and it has no available moves. -/
theorem C4_game_over_stuck_witness :
    (shift ⟨[1, 2, 1, 2, 2, 1, 2, 1, 1, 2, 1, 2, 2, 1, 2, 1], 0, 0⟩ Move.Left).state
      = [1, 2, 1, 2, 2, 1, 2, 1, 1, 2, 1, 2, 2, 1, 2, 1] ∧
    available_moves ⟨[1, 2, 1, 2, 2, 1, 2, 1, 1, 2, 1, 2, 2, 1, 2, 1], 0, 0⟩ = [] :=
  ⟨(C4_game_over_stuck ⟨[1, 2, 1, 2, 2, 1, 2, 1, 1, 2, 1, 2, 2, 1, 2, 1], 0, 0⟩ (by decide)
      (by decide)).1 Move.Left,
   (C4_game_over_stuck ⟨[1, 2, 1, 2, 2, 1, 2, 1, 1, 2, 1, 2, 2, 1, 2, 1], 0, 0⟩ (by decide)
      (by decide)).2.1⟩

/-- C6 witness: on a board with no empty cell, the hypothetical list is
nonempty and is exactly the singleton carrying the board with weight 1. -/
theorem C6_games_to_avg_witness :
    0 < (games_to_avg ⟨[1, 1, 1, 1, 1, 1, 1, 1, 1, 1, 1, 1, 1, 1, 1, 1], 2, 3⟩ [] 16).length ∧
    games_to_avg ⟨[1, 1, 1, 1, 1, 1, 1, 1, 1, 1, 1, 1, 1, 1, 1, 1], 2, 3⟩ [] 16
      = [(⟨[1, 1, 1, 1, 1, 1, 1, 1, 1, 1, 1, 1, 1, 1, 1, 1], 2, 3⟩, 1)] :=
  ⟨(C6_games_to_avg ⟨[1, 1, 1, 1, 1, 1, 1, 1, 1, 1, 1, 1, 1, 1, 1, 1], 2, 3⟩ [] 16
      (by decide)).1,
   (C6_games_to_avg ⟨[1, 1, 1, 1, 1, 1, 1, 1, 1, 1, 1, 1, 1, 1, 1, 1], 2, 3⟩ [] 16
      (by decide)).2 (by decide)⟩

/-- C8 witness: on the `[1,1,2,2]` board, shifting Left does not decrease the
number of empty cells and keeps the move counter. -/
theorem C8_shift_frame_witness :
    (shift ⟨[1, 1, 2, 2, 0, 0, 0, 0, 0, 0, 0, 0, 0, 0, 0, 0], 0, 0⟩ Move.Left).num_moves
      = (⟨[1, 1, 2, 2, 0, 0, 0, 0, 0, 0, 0, 0, 0, 0, 0, 0], 0, 0⟩ : Game).num_moves ∧
    (⟨[1, 1, 2, 2, 0, 0, 0, 0, 0, 0, 0, 0, 0, 0, 0, 0], 0, 0⟩ : Game).state.count 0
      ≤ (shift ⟨[1, 1, 2, 2, 0, 0, 0, 0, 0, 0, 0, 0, 0, 0, 0, 0], 0, 0⟩ Move.Left).state.count
        0 :=
  C8_shift_frame ⟨[1, 1, 2, 2, 0, 0, 0, 0, 0, 0, 0, 0, 0, 0, 0, 0], 0, 0⟩ (by decide) Move.Left

/-- C9 witness: on a full board `generate_tile` is a no-op; on a board with an
empty cell (and the draw in range) it changes the cells. -/
theorem C9_generate_tile_witness :
    generate_tile true 0 ⟨[1, 1, 1, 1, 1, 1, 1, 1, 1, 1, 1, 1, 1, 1, 1, 1], 3, 4⟩
      = ⟨[1, 1, 1, 1, 1, 1, 1, 1, 1, 1, 1, 1, 1, 1, 1, 1], 3, 4⟩ ∧
    (generate_tile true 0 ⟨[0, 1, 1, 1, 1, 1, 1, 1, 1, 1, 1, 1, 1, 1, 1, 1], 3, 4⟩).state
      ≠ (⟨[0, 1, 1, 1, 1, 1, 1, 1, 1, 1, 1, 1, 1, 1, 1, 1], 3, 4⟩ : Game).state := by
  constructor
  · exact (C9_generate_tile ⟨[1, 1, 1, 1, 1, 1, 1, 1, 1, 1, 1, 1, 1, 1, 1, 1], 3, 4⟩
      true 0).2.2.1 (by decide)
  · obtain ⟨k, -, -, -, -, hne⟩ :=
      (C9_generate_tile ⟨[0, 1, 1, 1, 1, 1, 1, 1, 1, 1, 1, 1, 1, 1, 1, 1], 3, 4⟩
        true 0).2.2.2 (by decide)
    exact hne
